import Mathlib

/-!
Verification of the oracle-card deck generator (`generate_deck.py`).

The program is shallowly embedded: Python's module-global pseudo-random
generator is modelled by explicit streams of natural numbers (`Nat → Nat`);
each primitive of the `random` module is an executable Lean function of the
pool and such a stream.  Fallible steps (configuration validation, the main
pipeline) return `Except String`.
-/

namespace Oracles

/-- A value stored in a card slot: `_get_random_field_value` returns either a
single string (when `count == 1`, or `""` for an absent/empty pool) or a list
of strings. -/
inductive FieldValue where
  | str : String → FieldValue
  | vals : List String → FieldValue
deriving DecidableEq

/-- Python truthiness of a slot value: a non-empty string or a non-empty
list.  Both `generate_card`'s post-filter and the renderer's `if value:`
tests use this. -/
def FieldValue.truthy : FieldValue → Bool
  | .str s => !(s == "")
  | .vals l => !l.isEmpty

/-- `random.choice(l)`: one uniformly chosen element of a non-empty list,
modelled by reducing one draw `r` of the random stream modulo the length. -/
def randChoice (l : List String) (r : Nat) : String :=
  l.getD (r % l.length) ""

/-- One pass of a Fisher–Yates shuffle, fuelled by the list length: pick a
random position, move that element to the front of the output, recurse on the
remainder with the rest of the stream. -/
def shuffleAux : Nat → List String → (Nat → Nat) → List String
  | 0, _, _ => []
  | _ + 1, [], _ => []
  | fuel + 1, a :: l, rs =>
    (a :: l).getD (rs 0 % (a :: l).length) "" ::
      shuffleAux fuel ((a :: l).eraseIdx (rs 0 % (a :: l).length)) (fun k => rs (k + 1))

/-- `random.shuffle(l)`: a uniform random permutation of `l`. -/
def shuffleWith (l : List String) (rs : Nat → Nat) : List String :=
  shuffleAux l.length l rs

/-- `random.sample(l, count)`: `count` distinct positions drawn without
replacement, modelled as the first `count` entries of a full shuffle. -/
def randSample (l : List String) (count : Nat) (rs : Nat → Nat) : List String :=
  (shuffleWith l rs).take count

/-- `pick_multiple(source_list, count)` of the source: empty list for an
empty pool; `count` independent `random.choice` draws (with replacement) when
`len(source_list) < count`; otherwise `random.sample` (without replacement). -/
def pick_multiple (source_list : List String) (count : Nat) (rs : Nat → Nat) : List String :=
  if source_list.isEmpty then []
  else if source_list.length < count then
    (List.range count).map (fun i => randChoice source_list (rs i))
  else
    randSample source_list count rs

/-- `_get_random_field_value(cfg, field_key, count)`: the argument `pool` is
`cfg.get(field_key)`.  A missing or empty pool yields `""` when `count == 1`
and `[]` otherwise; a non-empty pool yields one `random.choice` when
`count == 1` and `pick_multiple` otherwise. -/
def get_random_field_value (pool : Option (List String)) (count : Nat) (rs : Nat → Nat) :
    FieldValue :=
  match pool with
  | none => if count == 1 then .str "" else .vals []
  | some l =>
    if l.isEmpty then (if count == 1 then .str "" else .vals [])
    else if count == 1 then .str (randChoice l (rs 0))
    else .vals (pick_multiple l count rs)

/-- Sum of an entry's weights in a title distribution (a Python dict has each
title at most once; this sums in case of repetition so no uniqueness
hypothesis is needed). -/
def weightOf (dist : List (String × Nat)) (t : String) : Nat :=
  ((dist.filter (fun p => p.1 == t)).map (fun p => p.2)).sum

/-- `total = sum(counts)` in `build_title_pool`. -/
def totalWeight (dist : List (String × Nat)) : Nat :=
  (dist.map (fun p => p.2)).sum

/-- `chain.from_iterable([title] * count for ...)`: each title repeated its
weight many times. -/
def titleMultiset (dist : List (String × Nat)) : List String :=
  (dist.map (fun p => List.replicate p.2 p.1)).flatten

/-- One draw of `random.choices(titles, weights=weights)`: walk the
cumulative weights with a value `r` already reduced into `[0, total)`. -/
def weightedPick : List (String × Nat) → Nat → String
  | [], _ => ""
  | (t, w) :: rest, r => if r < w then t else weightedPick rest (r - w)

/-- `build_title_pool(title_distribution, card_count)`: if the total weight
covers the requested count, shuffle the weight-expanded multiset of titles and
keep the first `card_count`; otherwise make `card_count` independent weighted
draws with replacement. -/
def build_title_pool (dist : List (String × Nat)) (card_count : Nat) (rs : Nat → Nat) :
    List String :=
  if card_count ≤ totalWeight dist then
    (shuffleWith (titleMultiset dist) rs).take card_count
  else
    (List.range card_count).map (fun i => weightedPick dist (rs i % totalWeight dist))

/-- The JSON configuration at the keys the program reads: `none` models an
absent key, `some` a present one. -/
structure Config where
  title_distribution : Option (List (String × Nat)) := none
  symbols : Option (List String) := none
  table_verbes : Option (List String) := none
  lieux : Option (List String) := none
  personnages : Option (List String) := none
  objets : Option (List String) := none
  emotions : Option (List String) := none
  appearances : Option (List String) := none
  motivations : Option (List String) := none
  traits : Option (List String) := none
  sombres_secrets : Option (List String) := none
  reactions_amical_hostile : Option (List String) := none
  relations_pj_pnj : Option (List String) := none
  borders : Option (List String) := none

/-- A generated card.  Python's post-filter `{k: v for k, v in card.items()
if v}` removes falsy values; since every consumer re-reads slots with
`card.get(key)` and tests truthiness, an absent key and a falsy value are
indistinguishable, so slots keep their drawn `FieldValue` here. -/
structure Card where
  number : Nat
  title : String
  symbol : FieldValue := .str ""
  verbs : FieldValue := .vals []
  lieu : FieldValue := .str ""
  personnage : FieldValue := .str ""
  objet : FieldValue := .str ""
  emotions : FieldValue := .vals []
  appearance : FieldValue := .str ""
  motivation : FieldValue := .str ""
  traits : FieldValue := .vals []
  secret : FieldValue := .str ""
  reaction : FieldValue := .str ""
  relation : FieldValue := .str ""
  borders : FieldValue := .vals []
deriving DecidableEq

/-- `generate_card(index, title, cfg)`: one field draw per schema slot.  The
single global random source is modelled as one independent stream per slot
(`rs j` for the j-th draw of the schema). -/
def generate_card (index : Nat) (title : String) (cfg : Config) (rs : Nat → Nat → Nat) :
    Card where
  number := index
  title := title
  symbol := get_random_field_value cfg.symbols 1 (rs 0)
  verbs := get_random_field_value cfg.table_verbes 3 (rs 1)
  lieu := get_random_field_value cfg.lieux 1 (rs 2)
  personnage := get_random_field_value cfg.personnages 1 (rs 3)
  objet := get_random_field_value cfg.objets 1 (rs 4)
  emotions := get_random_field_value cfg.emotions 2 (rs 5)
  appearance := get_random_field_value cfg.appearances 1 (rs 6)
  motivation := get_random_field_value cfg.motivations 1 (rs 7)
  traits := get_random_field_value cfg.traits 3 (rs 8)
  secret := get_random_field_value cfg.sombres_secrets 1 (rs 9)
  reaction := get_random_field_value cfg.reactions_amical_hostile 1 (rs 10)
  relation := get_random_field_value cfg.relations_pj_pnj 1 (rs 11)
  borders := get_random_field_value cfg.borders (min 12 (cfg.borders.getD []).length) (rs 12)

/-- Python f-string interpolation of a slot value (`f"... : {value}"`): a
string prints itself, a list prints as its repr. -/
def FieldValue.pyStr : FieldValue → String
  | .str s => s
  | .vals l => "[" ++ String.intercalate ", " (l.map (fun s => "'" ++ s ++ "'")) ++ "]"

/-- `separator.join(value)`: over a list it joins the elements; over a string
it joins the characters, a Python string being an iterable of one-character
strings. -/
def pyJoin (sep : String) : FieldValue → String
  | .vals l => String.intercalate sep l
  | .str s => String.intercalate sep (s.data.map (fun c => String.mk [c]))

/-- One iteration of the renderer's field loop: a truthy list value joins its
elements with the separator, a truthy string is printed as is, a falsy value
contributes no line. -/
def fieldLine (label sep : String) (v : FieldValue) : List String :=
  if v.truthy then
    [label ++ " : " ++ (match v with
      | .vals l => String.intercalate sep l
      | .str s => s)]
  else []

/-- Step 1 of `format_card_as_text`: the content lines, a header
`"Carte {number} — {title}"` followed by one line per truthy slot in the
fixed field order, the reaction line, then the borders line (label
`"Thèmes"`, elements joined by `", "`). -/
def content_lines (card : Card) : List String :=
  ("Carte " ++ toString card.number ++ " — " ++ card.title) ::
  (fieldLine "Symbole" "" card.symbol ++
   fieldLine "Verbes" ", " card.verbs ++
   fieldLine "Lieu" "" card.lieu ++
   fieldLine "Personnage" "" card.personnage ++
   fieldLine "Objet" "" card.objet ++
   fieldLine "Émotions" ", " card.emotions ++
   fieldLine "Apparence" "" card.appearance ++
   fieldLine "Motivation" "" card.motivation ++
   fieldLine "Traits" ", " card.traits ++
   fieldLine "Secret" "" card.secret ++
   fieldLine "Relation" "" card.relation ++
   (if card.reaction.truthy then
      ["Réaction (amical/hostile) : " ++ card.reaction.pyStr] else []) ++
   (if card.borders.truthy then
      ["Thèmes : " ++ pyJoin ", " card.borders] else []))

/-- `max(len(line) for line in content_lines)` (0 on an empty list; Python's
`max` is only reached on a non-empty one). -/
def max_len (ls : List String) : Nat :=
  ls.foldr (fun s m => max s.length m) 0

/-- One wrapped content line `f"*{line}{padding} *"` with
`padding = " " * (max_len - len(line))`. -/
def wrap_line (m : Nat) (line : String) : String :=
  "*" ++ (line ++ String.mk (List.replicate (m - line.length) ' ')) ++ " *"

/-- The top/bottom border: `"*" * (max_len + 4)`. -/
def top_bottom_line (m : Nat) : String :=
  String.mk (List.replicate (m + 4) '*')

/-- Steps 2–3 of `format_card_as_text`: border, wrapped content lines,
border, joined with line breaks, one trailing line break appended. -/
def framed (ls : List String) : String :=
  String.intercalate "\n"
    (top_bottom_line (max_len ls) :: ls.map (wrap_line (max_len ls)) ++
      [top_bottom_line (max_len ls)]) ++ "\n"

/-- `format_card_as_text(card)`: the framed block, or `""` when no content
line was produced. -/
def format_card_as_text (card : Card) : String :=
  let ls := content_lines card
  if ls.isEmpty then "" else framed ls

/-- The `required_keys` list of `check_critical_lists`. -/
def required_keys : List String :=
  ["title_distribution", "symbols", "table_verbes", "lieux",
   "personnages", "objets", "motivations", "traits",
   "sombres_secrets", "reactions_amical_hostile", "relations_pj_pnj"]

/-- Presence and truthiness of a configuration key: `none` models `key not in
cfg`, `some b` a present key with `b` true exactly when its value is truthy
(a non-empty list or dict). -/
def keyStatus (cfg : Config) : String → Option Bool
  | "title_distribution" => cfg.title_distribution.map (fun d => !d.isEmpty)
  | "symbols" => cfg.symbols.map (fun l => !l.isEmpty)
  | "table_verbes" => cfg.table_verbes.map (fun l => !l.isEmpty)
  | "lieux" => cfg.lieux.map (fun l => !l.isEmpty)
  | "personnages" => cfg.personnages.map (fun l => !l.isEmpty)
  | "objets" => cfg.objets.map (fun l => !l.isEmpty)
  | "emotions" => cfg.emotions.map (fun l => !l.isEmpty)
  | "appearances" => cfg.appearances.map (fun l => !l.isEmpty)
  | "motivations" => cfg.motivations.map (fun l => !l.isEmpty)
  | "traits" => cfg.traits.map (fun l => !l.isEmpty)
  | "sombres_secrets" => cfg.sombres_secrets.map (fun l => !l.isEmpty)
  | "reactions_amical_hostile" => cfg.reactions_amical_hostile.map (fun l => !l.isEmpty)
  | "relations_pj_pnj" => cfg.relations_pj_pnj.map (fun l => !l.isEmpty)
  | "borders" => cfg.borders.map (fun l => !l.isEmpty)
  | _ => none

/-- The keys `check_critical_lists` collects in `missing_keys`. -/
def missing_keys (cfg : Config) : List String :=
  required_keys.filter (fun k => (keyStatus cfg k).isNone)

/-- The keys `check_critical_lists` collects in `empty_keys`. -/
def empty_keys (cfg : Config) : List String :=
  required_keys.filter (fun k => keyStatus cfg k == some false)

/-- The single fatal message, enumerating all missing keys then all empty
keys. -/
def error_message (missing empty : List String) : String :=
  "[ERREUR FATALE] La configuration JSON est incomplète ou vide :\n" ++
  (if missing.isEmpty then "" else
    "- Clés **manquantes** : " ++ String.intercalate ", " missing ++ "\n") ++
  (if empty.isEmpty then "" else
    "- Clés **vides** (doivent contenir des éléments) : " ++
      String.intercalate ", " empty ++ "\n") ++
  "Veuillez vérifier votre fichier deck_config.json."

/-- `check_critical_lists(cfg)`: raises `ValueError` (modelled by `.error`)
with the enumerating message when any required key is missing or empty. -/
def check_critical_lists (cfg : Config) : Except String Unit :=
  if !(missing_keys cfg).isEmpty || !(empty_keys cfg).isEmpty then
    .error (error_message (missing_keys cfg) (empty_keys cfg))
  else
    .ok ()

/-- The generation portion of `main`: validate, build the title pool, then
generate cards 1..card_count.  A `ValueError` is caught and the process
exits non-zero before any card is generated (modelled by `.error`). -/
def run_pipeline (cfg : Config) (card_count : Nat) (rsTitles : Nat → Nat)
    (rsCards : Nat → Nat → Nat → Nat) : Except String (List Card) :=
  match check_critical_lists cfg with
  | .error e => .error e
  | .ok _ =>
    let title_pool := build_title_pool (cfg.title_distribution.getD []) card_count rsTitles
    .ok ((List.range card_count).map (fun i =>
      generate_card (i + 1) (title_pool.getD i "") cfg (rsCards i)))

/-- A complete configuration with a one-element pool for every key (and a
two-element borders pool), the shape of the spec's deterministic end-to-end
example. -/
def cfgFull : Config where
  title_distribution := some [("Le Fou", 1)]
  symbols := some ["Soleil"]
  table_verbes := some ["Ouvrir"]
  lieux := some ["Tour"]
  personnages := some ["Mage"]
  objets := some ["Clé"]
  emotions := some ["Joie"]
  appearances := some ["Grand"]
  motivations := some ["Gloire"]
  traits := some ["Rusé"]
  sombres_secrets := some ["Dette"]
  reactions_amical_hostile := some ["Amical"]
  relations_pj_pnj := some ["Allié"]
  borders := some ["Feu", "Eau"]

/-- `cfgFull` with the schema-referenced pool `emotions` removed. -/
def cfgNoEmotions : Config := { cfgFull with emotions := none }

/-- `cfgFull` with a single-entry borders pool. -/
def cfgFeu : Config := { cfgFull with borders := some ["Feu"] }

/-- `cfgFull` with `motivations` removed and `objets` present but empty. -/
def cfgIncomplete : Config := { cfgFull with motivations := none, objets := some [] }

/-- Picking position `i` of a list and erasing it yields a permutation of the
original list. -/
theorem getD_cons_eraseIdx_perm :
    ∀ (l : List String) (i : Nat), i < l.length → (l.getD i "" :: l.eraseIdx i).Perm l
  | a :: l, 0, _ => by simp
  | a :: l, i + 1, h => by
    have hi : i < l.length := Nat.lt_of_succ_lt_succ (by simpa using h)
    have ih := getD_cons_eraseIdx_perm l i hi
    have step : (l.getD i "" :: a :: l.eraseIdx i).Perm
        (a :: l.getD i "" :: l.eraseIdx i) :=
      List.Perm.swap a (l.getD i "") (l.eraseIdx i)
    simpa using step.trans (ih.cons a)

/-- The fuelled Fisher–Yates pass returns a permutation of its input. -/
theorem shuffleAux_perm :
    ∀ (fuel : Nat) (l : List String) (rs : Nat → Nat),
      l.length ≤ fuel → (shuffleAux fuel l rs).Perm l
  | 0, l, _, h => by
    have : l = [] := List.eq_nil_of_length_eq_zero (Nat.le_zero.mp h)
    simp [this, shuffleAux]
  | _ + 1, [], _, _ => by simp [shuffleAux]
  | fuel + 1, a :: l, rs, h => by
    have hpos : 0 < (a :: l).length := by simp
    have hi : rs 0 % (a :: l).length < (a :: l).length := Nat.mod_lt _ hpos
    have hlen : ((a :: l).eraseIdx (rs 0 % (a :: l).length)).length ≤ fuel := by
      rw [List.length_eraseIdx_of_lt hi]
      simpa using Nat.le_of_succ_le_succ h
    have ih := shuffleAux_perm fuel ((a :: l).eraseIdx (rs 0 % (a :: l).length))
      (fun k => rs (k + 1)) hlen
    show ((a :: l).getD (rs 0 % (a :: l).length) "" ::
        shuffleAux fuel ((a :: l).eraseIdx (rs 0 % (a :: l).length))
          (fun k => rs (k + 1))).Perm (a :: l)
    exact (ih.cons _).trans (getD_cons_eraseIdx_perm (a :: l) _ hi)

/-- `shuffleWith` is a permutation of its input. -/
theorem shuffleWith_perm (l : List String) (rs : Nat → Nat) : (shuffleWith l rs).Perm l :=
  shuffleAux_perm l.length l rs (Nat.le_refl _)

/-- Every member of a list is at most `max_len` long. -/
theorem le_max_len : ∀ {ls : List String} {l : String}, l ∈ ls → l.length ≤ max_len ls := by
  intro ls
  induction ls with
  | nil => intro l h; cases h
  | cons a t ih =>
    intro l h
    rcases List.mem_cons.mp h with rfl | h
    · simp only [max_len, List.foldr_cons]
      exact Nat.le_max_left l.length (max_len t)
    · have := ih h
      have h2 : max_len t ≤ max_len (a :: t) := by
        simp only [max_len, List.foldr_cons]
        exact Nat.le_max_right a.length (max_len t)
      exact Nat.le_trans this h2

/-- `random.choice` of a non-empty pool returns a member of the pool. -/
theorem randChoice_mem {l : List String} (h : l ≠ []) (r : Nat) : randChoice l r ∈ l := by
  have hlt : r % l.length < l.length := Nat.mod_lt _ (List.length_pos.mpr h)
  simp only [randChoice, List.getD_eq_getElem?_getD, List.getElem?_eq_getElem hlt,
    Option.getD_some]
  exact List.getElem_mem hlt

/-- Each title occurs in the weight-expanded multiset exactly its total
weight many times. -/
theorem count_titleMultiset (dist : List (String × Nat)) (t : String) :
    (titleMultiset dist).count t = weightOf dist t := by
  induction dist with
  | nil => simp [titleMultiset, weightOf]
  | cons p rest ih =>
    obtain ⟨s, w⟩ := p
    by_cases hst : s = t
    · subst hst
      simp [titleMultiset, weightOf, List.count_replicate, List.filter_cons] at ih ⊢
      omega
    · simp [titleMultiset, weightOf, List.count_replicate, List.filter_cons, hst] at ih ⊢
      simpa [hst] using ih

/-- The weight-expanded multiset has the total weight as its length. -/
theorem length_titleMultiset (dist : List (String × Nat)) :
    (titleMultiset dist).length = totalWeight dist := by
  induction dist with
  | nil => simp [titleMultiset, totalWeight]
  | cons p rest ih =>
    simp only [titleMultiset, totalWeight, List.map_cons, List.flatten_cons,
      List.length_append, List.length_replicate, List.sum_cons] at ih ⊢
    omega

/-- A weighted draw with a value inside the cumulative range lands on a title
of positive weight. -/
theorem weightedPick_pos_weight :
    ∀ (dist : List (String × Nat)) (r : Nat), r < totalWeight dist →
      ∃ w, (weightedPick dist r, w) ∈ dist ∧ 0 < w
  | [], r, h => absurd h (by simp [totalWeight])
  | (t, w) :: rest, r, h => by
    by_cases hr : r < w
    · exact ⟨w, by simp [weightedPick, hr], Nat.lt_of_le_of_lt (Nat.zero_le r) hr⟩
    · have htot : totalWeight ((t, w) :: rest) = w + totalWeight rest := by
        simp [totalWeight]
      have hr' : r - w < totalWeight rest := by omega
      obtain ⟨w', hmem, hw'⟩ := weightedPick_pos_weight rest (r - w) hr'
      refine ⟨w', ?_, hw'⟩
      simpa [weightedPick, hr] using List.mem_cons_of_mem (t, w) hmem

/-- The validation succeeds exactly when it collected no missing and no empty
key. -/
theorem check_ok_iff_lists (cfg : Config) :
    check_critical_lists cfg = .ok () ↔ missing_keys cfg = [] ∧ empty_keys cfg = [] := by
  unfold check_critical_lists
  rcases hm : missing_keys cfg with _ | ⟨a, t⟩ <;>
    rcases he : empty_keys cfg with _ | ⟨b, u⟩ <;> simp [hm, he]

/-- Both collected lists are empty exactly when every required key is present
and truthy. -/
theorem lists_nil_iff (cfg : Config) :
    (missing_keys cfg = [] ∧ empty_keys cfg = []) ↔
      ∀ k ∈ required_keys, keyStatus cfg k = some true := by
  simp only [missing_keys, empty_keys, List.filter_eq_nil_iff]
  constructor
  · rintro ⟨hm, he⟩ k hk
    have h1 := hm k hk
    have h2 := he k hk
    rcases hs : keyStatus cfg k with _ | b
    · simp [hs] at h1
    · cases b
      · simp [hs] at h2
      · rfl
  · intro h
    constructor <;> intro k hk <;> simp [h k hk]

/-- C1: the pre-generation validation accepts a configuration exactly when
every key of `required_keys` is present and non-empty; that list omits the
schema-referenced pools `emotions`, `appearances` and `borders`, so those are
not validated. -/
theorem check_validates_exactly_required_keys (cfg : Config) :
    (check_critical_lists cfg = .ok () ↔
      ∀ k ∈ required_keys, keyStatus cfg k = some true) ∧
    "emotions" ∉ required_keys ∧ "appearances" ∉ required_keys ∧
    "borders" ∉ required_keys :=
  ⟨(check_ok_iff_lists cfg).trans (lists_nil_iff cfg), by decide, by decide, by decide⟩

/-- C1 counterexample: a configuration whose schema-referenced pool
`emotions` is absent passes the validation, and a card is generated from it
— the run is not aborted. -/
theorem validation_ignores_emotions :
    cfgNoEmotions.emotions = none ∧
    check_critical_lists cfgNoEmotions = .ok () ∧
    run_pipeline cfgNoEmotions 1 (fun _ => 0) (fun _ _ _ => 0) =
      .ok [generate_card 1 "Le Fou" cfgNoEmotions (fun _ _ => 0)] :=
  ⟨rfl, rfl, rfl⟩

/-- C2 (amended): for a non-empty pool, `pick_multiple` samples with
replacement (independent uniform draws) only when the requested count
strictly exceeds the pool size; at `count = len(pool)` it samples without
replacement, returning a permutation of the pool; in every case with
`count ≥ len(pool)` all returned elements belong to the pool. -/
theorem pick_multiple_ge_spec (P : List String) (c : Nat) (rs : Nat → Nat) :
    (P ≠ [] → P.length < c →
      pick_multiple P c rs = (List.range c).map (fun i => randChoice P (rs i))) ∧
    (P ≠ [] → (pick_multiple P P.length rs).Perm P) ∧
    (P ≠ [] → ∀ s ∈ pick_multiple P c rs, s ∈ P) := by
  refine ⟨?_, ?_, ?_⟩
  · intro hne hlt
    simp [pick_multiple, List.isEmpty_eq_false.mpr hne, hlt]
  · intro hne
    have hlen : (shuffleWith P rs).length = P.length := (shuffleWith_perm P rs).length_eq
    have htake : (shuffleWith P rs).take P.length = shuffleWith P rs :=
      List.take_of_length_le (le_of_eq hlen)
    simp only [pick_multiple, randSample, List.isEmpty_eq_false.mpr hne,
      Bool.false_eq_true, if_false, Nat.lt_irrefl, htake]
    exact shuffleWith_perm P rs
  · intro hne s hs
    by_cases hlt : P.length < c
    · rw [pick_multiple, if_neg (by simp [List.isEmpty_eq_false.mpr hne]),
        if_pos hlt] at hs
      obtain ⟨i, _, hi⟩ := List.mem_map.mp hs
      exact hi ▸ randChoice_mem hne (rs i)
    · rw [pick_multiple, if_neg (by simp [List.isEmpty_eq_false.mpr hne]),
        if_neg hlt] at hs
      have hmem : s ∈ shuffleWith P rs :=
        List.mem_of_mem_take hs
      exact (shuffleWith_perm P rs).mem_iff.mp hmem

/-- C2 counterexample: at the boundary `count == len(pool)`, the code calls
`random.sample`, so the draw on the pool `["a", "b"]` with a constant-zero
random stream yields the permutation `["a", "b"]`, while with-replacement
draws on the same stream would yield `["a", "a"]`. -/
theorem pick_multiple_boundary_no_replacement :
    pick_multiple ["a", "b"] 2 (fun _ => 0) = ["a", "b"] ∧
    (List.range 2).map (fun i => randChoice ["a", "b"] ((fun _ : Nat => 0) i)) =
      ["a", "a"] ∧
    (["a", "b"] : List String) ≠ ["a", "a"] :=
  ⟨by decide, by decide, by decide⟩

/-- The renderer always produces at least the header line, so it never takes
the empty-lines branch. -/
theorem content_lines_ne_nil (card : Card) : content_lines card ≠ [] := by
  simp [content_lines]

/-- C3 (amended): the renderer never returns the empty string — the header
line `"Carte {number} — {title}"` is always emitted, so every card, with
populated slots or not, renders as a framed block and the empty-lines guard
is unreachable. -/
theorem render_always_framed (card : Card) :
    format_card_as_text card = framed (content_lines card) ∧
    format_card_as_text card ≠ "" := by
  have h1 : format_card_as_text card = framed (content_lines card) := by
    simp [format_card_as_text, content_lines_ne_nil card]
  refine ⟨h1, ?_⟩
  rw [h1]
  intro h
  have hl := congrArg String.length h
  rw [framed, String.length_append] at hl
  have hn : ("\n" : String).length = 1 := rfl
  have h0 : ("" : String).length = 0 := rfl
  rw [hn, h0] at hl
  omega

/-- C3 counterexample: a card with no populated slots beyond its number and
title renders as a non-empty framed block, not as the empty string. -/
theorem render_bare_card_not_empty_string :
    format_card_as_text { number := 1, title := "X" } ≠ "" := by decide

/-- C7: the card `{number: 1, title: "X"}` with no other populated slots
renders as a block whose only content line is `"Carte 1 — X"` and whose top
and bottom borders have length `len("Carte 1 — X") + 4 = 15`. -/
theorem render_header_only_card :
    format_card_as_text { number := 1, title := "X" } =
      "***************\n*Carte 1 — X *\n***************\n" ∧
    ("***************" : String).length = ("Carte 1 — X" : String).length + 4 :=
  ⟨by decide, by decide⟩

/-- C8: the rendered block wraps each content line between a leading `"*"`
and a trailing `" *"`, and the enclosed text (line plus right padding) has
length `max_len` for every line — all right edges align. -/
theorem render_right_edges_align (card : Card) :
    format_card_as_text card = framed (content_lines card) ∧
    ∀ l ∈ content_lines card, ∃ mid,
      wrap_line (max_len (content_lines card)) l = "*" ++ mid ++ " *" ∧
      mid.length = max_len (content_lines card) := by
  refine ⟨by simp [format_card_as_text, content_lines_ne_nil card], ?_⟩
  intro l hl
  refine ⟨l ++ String.mk (List.replicate (max_len (content_lines card) - l.length) ' '),
    rfl, ?_⟩
  rw [String.length_append]
  have hpad : (String.mk (List.replicate (max_len (content_lines card) - l.length) ' ')).length
      = max_len (content_lines card) - l.length := by
    simp
  rw [hpad]
  exact Nat.add_sub_cancel' (le_max_len hl)

/-- C10 (implicit): every wrapped content line has total length
`max_len + 3`, one character less than the borders' `max_len + 4`, so the
content lines' closing `*` sits one column left of the borders' last
column. -/
theorem render_line_widths (card : Card) :
    (top_bottom_line (max_len (content_lines card))).length =
      max_len (content_lines card) + 4 ∧
    (∀ l ∈ content_lines card,
      (wrap_line (max_len (content_lines card)) l).length =
        max_len (content_lines card) + 3) ∧
    max_len (content_lines card) + 3 ≠ max_len (content_lines card) + 4 := by
  refine ⟨by simp [top_bottom_line], ?_, by omega⟩
  intro l hl
  have hle := le_max_len hl
  have h1 : ("*" : String).length = 1 := rfl
  have h2 : (" *" : String).length = 2 := rfl
  rw [wrap_line, String.length_append, String.length_append, String.length_append,
    h1, h2]
  have hpad : (String.mk (List.replicate (max_len (content_lines card) - l.length) ' ')).length
      = max_len (content_lines card) - l.length := by
    simp
  rw [hpad]
  omega

/-- C4: on a valid configuration whose borders pool has exactly one entry,
the drawn count is `min(12, 1) = 1`, so the slot holds the bare string
`"Feu"` instead of a one-element list, and the renderer's `', '.join` over
that string joins its characters: the card shows `"Thèmes : F, e, u"`, not
the whole pool entry `"Thèmes : Feu"`. -/
theorem borders_single_entry_char_join :
    check_critical_lists cfgFeu = .ok () ∧
    min 12 (cfgFeu.borders.getD []).length = 1 ∧
    (generate_card 1 "Le Fou" cfgFeu (fun _ _ => 0)).borders = FieldValue.str "Feu" ∧
    "Thèmes : F, e, u" ∈ content_lines (generate_card 1 "Le Fou" cfgFeu (fun _ _ => 0)) ∧
    "Thèmes : Feu" ∉ content_lines (generate_card 1 "Le Fou" cfgFeu (fun _ _ => 0)) :=
  ⟨rfl, by decide, by decide, by decide, by decide⟩

/-- C5: when the total weight covers the requested count, the title pool is
the first `card_count` titles of a shuffled weight-expanded multiset: its
length is exactly `card_count`, each title's frequency is at most its
weight, and equals its weight when the total equals `card_count`. -/
theorem build_title_pool_total_ge (dist : List (String × Nat)) (card_count : Nat)
    (rs : Nat → Nat) (h : card_count ≤ totalWeight dist) :
    (build_title_pool dist card_count rs).length = card_count ∧
    (∀ t, (build_title_pool dist card_count rs).count t ≤ weightOf dist t) ∧
    (totalWeight dist = card_count →
      ∀ t, (build_title_pool dist card_count rs).count t = weightOf dist t) := by
  have hpool : build_title_pool dist card_count rs =
      (shuffleWith (titleMultiset dist) rs).take card_count := by
    simp [build_title_pool, h]
  have hlen : (shuffleWith (titleMultiset dist) rs).length = totalWeight dist := by
    rw [(shuffleWith_perm _ rs).length_eq, length_titleMultiset]
  refine ⟨?_, ?_, ?_⟩
  · rw [hpool, List.length_take, hlen]
    omega
  · intro t
    rw [hpool]
    calc ((shuffleWith (titleMultiset dist) rs).take card_count).count t
        ≤ (shuffleWith (titleMultiset dist) rs).count t :=
          (List.take_sublist _ _).count_le t
      _ = (titleMultiset dist).count t := (shuffleWith_perm _ rs).count_eq t
      _ = weightOf dist t := count_titleMultiset dist t
  · intro htot t
    rw [hpool, List.take_of_length_le (le_of_eq (by rw [hlen, htot])),
      (shuffleWith_perm _ rs).count_eq t, count_titleMultiset]

/-- C5 witness at the distribution A↦2, B↦1 with 2 cards requested. -/
theorem build_title_pool_total_ge_witness :
    (build_title_pool [("A", 2), ("B", 1)] 2 (fun _ => 0)).length = 2 :=
  (build_title_pool_total_ge [("A", 2), ("B", 1)] 2 (fun _ => 0) (by decide)).1

/-- C6: when the total weight is below the requested count (and some weight
is positive), the pool consists of `card_count` independent weighted draws,
each of which is a title of the distribution with positive weight. -/
theorem build_title_pool_total_lt (dist : List (String × Nat)) (card_count : Nat)
    (rs : Nat → Nat) (hlt : totalWeight dist < card_count)
    (hpos : 0 < totalWeight dist) :
    (build_title_pool dist card_count rs).length = card_count ∧
    ∀ s ∈ build_title_pool dist card_count rs, ∃ w, (s, w) ∈ dist ∧ 0 < w := by
  have hbranch : build_title_pool dist card_count rs =
      (List.range card_count).map (fun i => weightedPick dist (rs i % totalWeight dist)) := by
    rw [build_title_pool, if_neg (Nat.not_le.mpr hlt)]
  refine ⟨by rw [hbranch]; simp, ?_⟩
  intro s hs
  rw [hbranch] at hs
  obtain ⟨i, _, hi⟩ := List.mem_map.mp hs
  have hr : rs i % totalWeight dist < totalWeight dist := Nat.mod_lt _ hpos
  obtain ⟨w, hmem, hw⟩ := weightedPick_pos_weight dist (rs i % totalWeight dist) hr
  exact ⟨w, hi ▸ hmem, hw⟩

/-- C6 witness at the distribution A↦1 with 2 cards requested. -/
theorem build_title_pool_total_lt_witness :
    (build_title_pool [("A", 1)] 2 (fun _ => 0)).length = 2 :=
  (build_title_pool_total_lt [("A", 1)] 2 (fun _ => 0) (by decide) (by decide)).1

/-- C9: whenever some required key is missing or present-but-empty, the
validation produces the single fatal message enumerating every missing key
and every empty key, and the pipeline aborts with that message before any
card is generated. -/
theorem check_failure_aborts_with_full_report (cfg : Config) (card_count : Nat)
    (rsT : Nat → Nat) (rsC : Nat → Nat → Nat → Nat)
    (h : missing_keys cfg ≠ [] ∨ empty_keys cfg ≠ []) :
    check_critical_lists cfg =
      .error (error_message (missing_keys cfg) (empty_keys cfg)) ∧
    run_pipeline cfg card_count rsT rsC =
      .error (error_message (missing_keys cfg) (empty_keys cfg)) := by
  have hcond : (!(missing_keys cfg).isEmpty || !(empty_keys cfg).isEmpty) = true := by
    rcases h with h | h <;> simp [List.isEmpty_eq_false.mpr h]
  have h1 : check_critical_lists cfg =
      .error (error_message (missing_keys cfg) (empty_keys cfg)) := by
    rw [check_critical_lists, if_pos hcond]
  exact ⟨h1, by rw [run_pipeline, h1]⟩

/-- C9 witness: a configuration missing `motivations` and with `objets`
empty yields the one report listing `motivations` under missing and `objets`
under empty, and aborts the pipeline. -/
theorem check_failure_witness :
    missing_keys cfgIncomplete = ["motivations"] ∧
    empty_keys cfgIncomplete = ["objets"] ∧
    check_critical_lists cfgIncomplete =
      .error (error_message (missing_keys cfgIncomplete) (empty_keys cfgIncomplete)) ∧
    run_pipeline cfgIncomplete 1 (fun _ => 0) (fun _ _ _ => 0) =
      .error (error_message (missing_keys cfgIncomplete) (empty_keys cfgIncomplete)) :=
  ⟨by decide, by decide,
    (check_failure_aborts_with_full_report cfgIncomplete 1 (fun _ => 0) (fun _ _ _ => 0)
      (Or.inl (by decide))).1,
    (check_failure_aborts_with_full_report cfgIncomplete 1 (fun _ => 0) (fun _ _ _ => 0)
      (Or.inl (by decide))).2⟩

end Oracles
